import Mathlib

/-!
Verification of the docked-entry store of PyViewDock (`io.py`, class `Docked`).

The Python source is shallowly embedded below:

* Python scalar annotation values (`int` / `float` / `None`) become `PyVal`
  (floats are modelled exactly as rationals: every literal the annotation
  regex accepts is a decimal numeral, and IEEE rounding is monotone, so the
  comparisons the claims exercise coincide);
* Python dictionaries become insertion-ordered association lists (`RemarkMap`),
  which matches CPython's key ordering semantics;
* statements that can raise (`IndexError`, `TypeError`, `ValueError`,
  `KeyError`, reading the unbound local `remarks`) return `Except PyErr`;
* the `while` loops of `Docked.load_dock4` become a fuel-indexed step function
  (`segLoop`); `none` means the fuel ran out, and an input on which the result
  is `none` for every fuel is an input on which the Python loop never
  terminates;
* coordinate payloads are kept as the list of their source lines; the string
  the source stores is `payloadString` of that list
  (`"\n".join(lines) + '\nENDMDL\n'`), and every downstream use
  (`"".join(...)`, `del`, `append`) commutes with this representation;
* `cmd.read_pdbstr(text, name)` calls are recorded in `readCalls` as
  `(name, text)` pairs instead of touching the host.

Heap aliasing between entries (two consecutive coordinate blocks after a
single REMARK block share one `remarks` dict object in CPython) is not
modelled: entries are values.  All claims below are stated at the level of
store values, where the loop in `remove_ndx` is equivalent to an independent
per-entry update because the removed entry is left unchanged by its own visit.
-/

/-! ## Characters and tokens -/

/-- Python `\s` (ASCII part, which is all the inputs here contain):
space, tab, newline, carriage return, vertical tab, form feed. -/
def isSpace (c : Char) : Bool :=
  c = ' ' || c = '\t' || c = '\n' || c = '\r' || c = '\x0b' || c = '\x0c'

/-- Python `\w`: word character (ASCII part). -/
def isWordChar (c : Char) : Bool := c.isAlphanum || c = '_'

/-- Python `line.strip()`. -/
def pyStrip (s : String) : String :=
  ⟨((s.data.dropWhile isSpace).reverse.dropWhile isSpace).reverse⟩

/-- Python `line.split()[0].upper()` for a line that has at least one token
(`load_dock4` pre-filters blank lines, so `split()` is never empty there). -/
def firstTokenUpper (s : String) : String :=
  ⟨((s.data.dropWhile isSpace).takeWhile (fun c => !isSpace c)).map Char.toUpper⟩

/-- The preprocessing `[line.strip() for line in cluster if line.strip()]`. -/
def cleanLines (cluster : List String) : List String :=
  (cluster.filter (fun l => pyStrip l ≠ "")).map pyStrip

/-! ## Python values and errors -/

/-- A Python annotation value: `int`, `float` (modelled exactly as `ℚ`), or
the `None` sentinel written by equalization. -/
inductive PyVal where
  | vint (n : Int)
  | vfloat (q : ℚ)
  | vnone
deriving DecidableEq, Repr

/-- Exceptions the embedded code can raise. -/
inductive PyErr where
  | indexError
  | typeError
  | valueError
  | keyError
  | unboundLocal
deriving DecidableEq, Repr

/-- Numeric content of a value (`None` has none). -/
def PyVal.toRat? : PyVal → Option ℚ
  | .vint n => some (n : ℚ)
  | .vfloat q => some q
  | .vnone => none

/-- Python `==` on annotation values: numeric comparison across `int`/`float`,
`None` equal only to `None`; never raises. -/
def pyEqB (a b : PyVal) : Bool :=
  match a.toRat?, b.toRat? with
  | some x, some y => decide (x = y)
  | none, none => true
  | _, _ => false

/-- Python `>` on annotation values: raises `TypeError` when either side is
`None`. -/
def pyGt (a b : PyVal) : Except PyErr Bool :=
  match a.toRat?, b.toRat? with
  | some x, some y => .ok (decide (y < x))
  | _, _ => .error .typeError

/-- Python `value - k` for an `int` right operand. -/
def pySubInt (a : PyVal) (k : Int) : Except PyErr PyVal :=
  match a with
  | .vint n => .ok (.vint (n - k))
  | .vfloat q => .ok (.vfloat (mkRat (q.num - k * (q.den : Int)) q.den))
  | .vnone => .error .typeError

/-- Python `str(value)` (only `int` and `None` reach it in the source; the
`float` case is a stand-in and is exercised by no claim). -/
def pyStr : PyVal → String
  | .vint n => toString n
  | .vnone => "None"
  | .vfloat q => toString q

/-! ## Dictionaries (insertion-ordered association lists) -/

/-- A Python dict from annotation names to values. -/
abbrev RemarkMap := List (String × PyVal)

/-- Dict lookup `m.get(k)`. -/
def mget (m : RemarkMap) (k : String) : Option PyVal :=
  (List.find? (fun p => p.1 == k) m).map (fun p => p.2)

/-- Dict store `m[k] = v`: update in place, or append a new key at the end
(CPython insertion order). -/
def mset (m : RemarkMap) (k : String) (v : PyVal) : RemarkMap :=
  match m with
  | [] => [(k, v)]
  | p :: t => if p.1 == k then (k, v) :: t else p :: mset t k v

/-- Dict `m.setdefault(k, v)`. -/
def msetdefault (m : RemarkMap) (k : String) (v : PyVal) : RemarkMap :=
  if (mget m k).isSome then m else m ++ [(k, v)]

/-- Keys of a dict, in order. -/
def mkeys (m : RemarkMap) : List String := m.map (fun p => p.1)

/-! ## The annotation extractor: `remark_re` -/

/-- Embedding of `re.match` for
`(?i)^REMARK\b\s+(\w+)\s*:\s*(-?\d+\.?\d*)`, returning the two captured
groups.  After the case-insensitive literal `REMARK`, `\b\s+` is equivalent to
"the next character exists and is whitespace" (the boundary needs a non-word
character, and `\s+` then needs whitespace, which is non-word). -/
def matchRemark (s : String) : Option (String × String) :=
  match s.data with
  | c1 :: c2 :: c3 :: c4 :: c5 :: c6 :: rest =>
    if ([c1, c2, c3, c4, c5, c6].map Char.toUpper) = "REMARK".data then
      match rest with
      | c7 :: _ =>
        if isSpace c7 then
          let r1 := rest.dropWhile isSpace
          match r1.span isWordChar with
          | ([], _) => none
          | (nm, r2) =>
            match r2.dropWhile isSpace with
            | ':' :: r3 =>
              let r4 := r3.dropWhile isSpace
              let (neg, r5) := match r4 with
                | '-' :: t => (true, t)
                | _ => (false, r4)
              match r5.span Char.isDigit with
              | ([], _) => none
              | (ds, r6) =>
                let frac := match r6 with
                  | '.' :: t => '.' :: t.takeWhile Char.isDigit
                  | _ => []
                some (⟨nm⟩, ⟨(if neg then ['-'] else []) ++ ds ++ frac⟩)
            | _ => none
        else none
      | [] => none
    else none
  | _ => none

/-- Value of a digit run as a natural number. -/
def digitsToNat (l : List Char) : Nat :=
  l.foldl (fun a c => a * 10 + (c.toNat - '0'.toNat)) 0

/-- Python `float(numeral)` for a numeral of shape `-?\d+\.?\d*`, exactly:
the decimal `ip.fp` is the rational `(ip * 10^|fp| + fp) / 10^|fp|`
(built with one `mkRat` so that it evaluates inside the kernel). -/
def numeralToRat (s : String) : ℚ :=
  let body : List Char → ℚ := fun l =>
    match l.span Char.isDigit with
    | (ip, rest) =>
      let fp := match rest with
        | '.' :: t => t
        | _ => []
      mkRat ((digitsToNat ip : Int) * (((10 : Nat) ^ fp.length : Nat) : Int)
        + (digitsToNat fp : Int)) ((10 : Nat) ^ fp.length)
  match s.data with
  | '-' :: t => -(body t)
  | t => body t

/-- Python `int(numeral)`: raises `ValueError` when the numeral carries a
decimal point. -/
def pyIntOfNumeral (s : String) : Except PyErr Int :=
  if s.data.contains '.' then .error .valueError
  else
    match s.data with
    | '-' :: t => .ok (-(digitsToNat t : Int))
    | t => .ok ((digitsToNat t : Int))

/-- Line 119 of the source: `float(...)` unless the key is `Cluster` or
`ClusterRank`, which get `int(...)`. -/
def keyValue (k numeral : String) : Except PyErr PyVal :=
  if k = "Cluster" || k = "ClusterRank" then
    (pyIntOfNumeral numeral).map .vint
  else .ok (.vfloat (numeralToRat numeral))

/-! ## The record segmenter: the `while` loop of `load_dock4` -/

/-- Does the line's first token read `ATOM` or `HETATM`? -/
def isCoordLine (l : String) : Bool :=
  firstTokenUpper l = "ATOM" || firstTokenUpper l = "HETATM"

/-- State of the segmentation loop: the local variable `remarks` (`none` while
it is still unbound), the remark dicts collected for `self.entries`, and the
payload line blocks collected for `self.pdb`. -/
structure SegSt where
  remarks? : Option RemarkMap
  entries : List RemarkMap
  pdb : List (List String)
deriving DecidableEq, Repr

/-- Outcome of the loop: normal exit, or an exception carrying the state the
object held when it was raised. -/
inductive SegOut where
  | ok (st : SegSt)
  | err (e : PyErr) (st : SegSt)
deriving DecidableEq, Repr

/-- The inner `while remark_re.match(cluster[i])` loop: consume matching lines
into the dict; evaluating the condition at the end of the input raises
`IndexError`, exactly as `cluster[i]` with `i == len(cluster)` does. -/
def innerRemarks (m : RemarkMap) (rem : List String) :
    Except PyErr (RemarkMap × List String) :=
  match rem with
  | [] => .error .indexError
  | l :: t =>
    match matchRemark l with
    | none => .ok (m, rem)
    | some (k, numeral) =>
      match keyValue k numeral with
      | .error e => .error e
      | .ok v => innerRemarks (mset m k v) t

/-- The inner `while cluster[i].split()[0].upper() in ('ATOM', 'HETATM')`
loop: collect the coordinate run; evaluating the condition at the end of the
input raises `IndexError`. -/
def innerCoords (rem : List String) :
    Except PyErr (List String × List String) :=
  match rem with
  | [] => .error .indexError
  | l :: t =>
    if isCoordLine l then
      match innerCoords t with
      | .error e => .error e
      | .ok (run, rem') => .ok (l :: run, rem')
    else .ok ([], rem)

/-- One-pass segmentation, the outer `while i < len(cluster)` loop.  Fuel
counts outer iterations; `none` means the fuel was exhausted.  Note the
faithful absence of `i += 1` in the `REMARK` branch: when the head line's
first token is `REMARK` but the full pattern does not match, the loop retries
the same line. -/
def segLoop (fuel : Nat) (rem : List String) (st : SegSt) : Option SegOut :=
  match fuel with
  | 0 => none
  | fuel + 1 =>
    match rem with
    | [] => some (.ok st)
    | line :: rest =>
      if firstTokenUpper line = "REMARK" then
        match innerRemarks [] rem with
        | .error e => some (.err e st)
        | .ok (m, rem') => segLoop fuel rem' { st with remarks? := some m }
      else if isCoordLine line then
        match innerCoords rem with
        | .error e => some (.err e st)
        | .ok (run, rem') =>
          match st.remarks? with
          | none => some (.err .unboundLocal { st with pdb := st.pdb ++ [run] })
          | some m =>
            segLoop fuel rem'
              { st with entries := st.entries ++ [m], pdb := st.pdb ++ [run] }
      else
        segLoop fuel rest st

/-- The initial segmentation state (`self.__init__()`, `remarks` unbound). -/
def segInit : SegSt := ⟨none, [], []⟩

/-- The model-end marker and line join the source appends:
`"\n".join(cluster[i_0:i]) + '\nENDMDL\n'`. -/
def payloadString (sl : List String) : String :=
  String.intercalate "\n" sl ++ "\nENDMDL\n"

/-! ## The entry store: class `Docked` -/

/-- One docked entry: the `remarks` dict plus the `internal` pair
(`'object'`, `'state'`). -/
structure Entry where
  remarks : RemarkMap
  obj : String
  state : Int
deriving DecidableEq, Repr

/-- The store: `self.entries` and `self.pdb`. -/
structure Docked where
  entries : List Entry
  pdb : List (List String)
deriving DecidableEq, Repr

/-- The `remarks` property: membership in the union of all entries' key sets
(`{j for i in self.entries for j in i['remarks'].keys()}`). -/
def remarksContains (entries : List Entry) (k : String) : Bool :=
  entries.any (fun e => (mget e.remarks k).isSome)

/-- The union of key sets as a deduplicated list (CPython iterates the set in
an unspecified order; only the key membership and the resulting dict content
are observable, and those are order-independent). -/
def remarkKeys (entries : List RemarkMap) : List String :=
  (entries.map mkeys).flatten.dedup

/-- Lines 137-143 of the source: give every entry every key seen in any entry
(`setdefault(j, None)`), then set `internal['object']` and
`internal['state'] = n + 1`. -/
def equalize (ms : List RemarkMap) (object : String) : List Entry :=
  let schema := remarkKeys ms
  ms.enum.map (fun p =>
    { remarks := schema.foldl (fun mm k => msetdefault mm k .vnone) p.2
      obj := object
      state := (p.1 : Int) + 1 })

/-- Mode `'1'` body (lines 152-159): walk `zip(self.entries, self.pdb)`,
keep entries with `ClusterRank == 0`, renumbering `n_state` from 1. -/
def mode1Go (l : List (Entry × List String)) (nState : Int) :
    Except PyErr (List Entry × List (List String)) :=
  match l with
  | [] => .ok ([], [])
  | (e, p) :: t =>
    match mget e.remarks "ClusterRank" with
    | none => .error .keyError
    | some v =>
      if pyEqB v (.vint 0) then
        match mode1Go t (nState + 1) with
        | .error err => .error err
        | .ok (es, ps) => .ok ({ e with state := nState + 1 } :: es, p :: ps)
      else mode1Go t nState

/-- Append to a `dict` of lists after `setdefault(key, [])` (mode `'2'`). -/
def groupAppend (groups : List (String × List (List String))) (k : String)
    (p : List String) : List (String × List (List String)) :=
  match groups with
  | [] => [(k, [p])]
  | g :: t => if g.1 == k then (k, g.2 ++ [p]) :: t else g :: groupAppend t k p

/-- Group size lookup for mode `'2'` (`len(pdb[object_new])`). -/
def groupLen (groups : List (String × List (List String))) (k : String) : Nat :=
  match List.find? (fun g => g.1 == k) groups with
  | some g => g.2.length
  | none => 0

/-- Mode `'2'` body (lines 166-171): rewrite each entry's object to
`object + '-' + str(Cluster)` and its state to `len(pdb[object_new]) + 1`,
where the length is taken AFTER appending the payload (the source's
off-by-one). -/
def mode2Go (object : String) (l : List (Entry × List String))
    (groups : List (String × List (List String))) :
    Except PyErr (List Entry × List (String × List (List String))) :=
  match l with
  | [] => .ok ([], groups)
  | (e, p) :: t =>
    match mget e.remarks "Cluster" with
    | none => .error .keyError
    | some c =>
      let objectNew := object ++ "-" ++ pyStr c
      let groups' := groupAppend groups objectNew p
      let e' := { e with obj := objectNew,
                         state := (groupLen groups' objectNew : Int) + 1 }
      match mode2Go object t groups' with
      | .error err => .error err
      | .ok (es, gs) => .ok (e' :: es, gs)

/-- Result of `Docked.load_dock4`: the final store fields, whether the
`Missing 'Cluster' or 'ClusterRank'` early return fired, and the recorded
`cmd.read_pdbstr` calls as `(object, text)` pairs. -/
structure LoadResult where
  entries : List Entry
  pdb : List (List String)
  failedSplit : Bool
  readCalls : List (String × String)
deriving DecidableEq, Repr

/-- Join a payload list the way `"".join(...)` does on the stored strings. -/
def joinPdb (pdb : List (List String)) : String :=
  String.join (pdb.map payloadString)

/-- Embedding of `Docked.load_dock4(cluster, object, mode)`.  `none` = the
segmentation loop ran out of fuel (the Python loop does not terminate within
`fuel` outer iterations); `some (.error e)` = the call raised `e`.

Line 146 is kept with Python's operator precedence:
`(mode in ('1','2') and not 'Cluster' in R) or (not 'ClusterRank' in R)`. -/
def load_dock4 (fuel : Nat) (cluster : List String) (object : String)
    (mode : String) : Option (Except PyErr LoadResult) :=
  let cl := cleanLines cluster
  match segLoop fuel cl segInit with
  | none => none
  | some (.err e _) => some (.error e)
  | some (.ok st) =>
    let entries := equalize st.entries object
    let pdb := st.pdb
    if ((mode = "1" || mode = "2") && !(remarksContains entries "Cluster"))
        || !(remarksContains entries "ClusterRank") then
      some (.ok ⟨entries, pdb, true, []⟩)
    else if mode = "1" then
      match mode1Go (entries.zip pdb) 0 with
      | .error e => some (.error e)
      | .ok (es, ps) => some (.ok ⟨es, ps, false, [(object, joinPdb ps)]⟩)
    else if mode = "2" then
      match mode2Go object (entries.zip pdb) [] with
      | .error e => some (.error e)
      | .ok (es, gs) =>
        some (.ok ⟨es, pdb, false,
          gs.map (fun g => (g.1, String.join (g.2.map payloadString)))⟩)
    else
      some (.ok ⟨entries, pdb, false, [(object, joinPdb pdb)]⟩)

/-! ## `Docked.remove_ndx` -/

/-- Sequential effectful map, as a Python `for` loop that builds a list and
stops at the first exception. -/
def exceptMapM {a b : Type} (f : a -> Except PyErr b) : List a -> Except PyErr (List b)
  | [] => .ok []
  | x :: t =>
    match f x with
    | .error e => .error e
    | .ok y =>
      match exceptMapM f t with
      | .error e => .error e
      | .ok ys => .ok (y :: ys)

/-- Dict item access `e['remarks'][k]`: raises `KeyError` when absent. -/
def getKey (e : Entry) (k : String) : Except PyErr PyVal :=
  match mget e.remarks k with
  | none => .error .keyError
  | some v => .ok v

/-- Python `int(b)` for a `bool`. -/
def boolInt (b : Bool) : Int := if b then 1 else 0

/-- The body of the `for e in self.entries` loop of `remove_ndx`, as the
update of one entry `e` given the removed `entry`.  The sequential in-place
loop is equivalent to this independent map because the removed entry is
unchanged by its own visit (its rank and state are never strictly greater
than themselves), so the values of `entry` read by later iterations are the
original ones. -/
def removeEntryUpd (entry e : Entry) : Except PyErr Entry :=
  match getKey e "Cluster" with
  | .error er => .error er
  | .ok ec =>
    match getKey entry "Cluster" with
    | .error er => .error er
    | .ok tc =>
      let step1 : Except PyErr Entry :=
        if pyEqB ec tc then
          match getKey e "ClusterRank" with
          | .error er => .error er
          | .ok erk =>
            match getKey entry "ClusterRank" with
            | .error er => .error er
            | .ok trk =>
              match pyGt erk trk with
              | .error er => .error er
              | .ok gt =>
                match pySubInt erk (boolInt gt) with
                | .error er => .error er
                | .ok v =>
                  .ok { e with remarks := mset e.remarks "ClusterRank" v }
        else .ok e
      match step1 with
      | .error er => .error er
      | .ok e1 =>
        .ok (if e1.obj = entry.obj then
               { e1 with state := e1.state - boolInt (decide (entry.state < e1.state)) }
             else e1)

/-- Embedding of `Docked.remove_ndx(ndx, update)` for a non-negative index
(Python also accepts negative indices; no claim exercises them). -/
def Docked.remove_ndx (s : Docked) (ndx : Nat) (update : Bool) :
    Except PyErr Docked :=
  match s.entries.get? ndx with
  | none => .error .indexError
  | some entry =>
    let doUpd := update && remarksContains s.entries "Cluster"
                        && remarksContains s.entries "ClusterRank"
    match (if doUpd then exceptMapM (removeEntryUpd entry) s.entries
           else .ok s.entries) with
    | .error e => .error e
    | .ok entries' =>
      if ndx < s.pdb.length then
        .ok ⟨entries'.eraseIdx ndx, s.pdb.eraseIdx ndx⟩
      else .error .indexError

/-! ## `Docked.sort` -/

/-- Stable insert: place `x` before the first element `y` with `le x y`
(so an element keeps its position relative to equal elements that were
originally before it). -/
def insertS {a : Type} (le : a -> a -> Bool) (x : a) : List a -> List a
  | [] => [x]
  | y :: t => if le x y then x :: y :: t else y :: insertS le x t

/-- Stable insertion sort.  For a total `le` (which holds whenever `sorted`
does not raise: all keys are numeric) the stable ascending order is unique,
so this computes exactly what CPython's stable sort computes. -/
def insertionSort {a : Type} (le : a -> a -> Bool) : List a -> List a
  | [] => []
  | x :: t => insertS le x (insertionSort le t)

/-- Comparison key order used once all keys are numeric. -/
def pyLeB (a b : PyVal) : Bool :=
  match a.toRat?, b.toRat? with
  | some x, some y => decide (x ≤ y)
  | _, _ => true

/-- Embedding of `Docked.sort(remark, reverse)`, i.e.
`sorted(self.entries, key=lambda k: k['remarks'][remark], reverse=reverse)`.

CPython's `sorted` first computes every key (raising `KeyError` on an entry
without the field), then runs a stable mergesort comparing keys with `<`.
With at least two elements every element takes part in at least one
comparison, and any comparison with `None` on either side raises `TypeError`;
with fewer than two elements no comparison happens.  `reverse=True` yields the
stable descending order.  On any exception `self.entries` is not assigned. -/
def Docked.sort (s : Docked) (remark : String) (reverse : Bool) :
    Except PyErr Docked :=
  if !(remarksContains s.entries remark) then .error .valueError
  else
    match exceptMapM (fun e =>
        match mget e.remarks remark with
        | none => Except.error PyErr.keyError
        | some v => Except.ok (v, e)) s.entries with
    | .error e => .error e
    | .ok dec =>
      if 2 ≤ dec.length && dec.any (fun p => p.1 = PyVal.vnone) then
        .error .typeError
      else
        let le : PyVal × Entry → PyVal × Entry → Bool := fun a b =>
          if reverse then pyLeB b.1 a.1 else pyLeB a.1 b.1
        .ok { s with entries := (insertionSort le dec).map (fun p => p.2) }

/-! ## Specification-side definitions

These are written from the wording of the claims, to be compared with the
embedded source functions above. -/

/-- Written from C8's words: the entries whose `ClusterRank` equals 0, paired
with their payloads, in original relative order. -/
def rank0Spec (l : List (Entry × List String)) : List (Entry × List String) :=
  l.filter (fun ep =>
    pyEqB ((mget ep.1.remarks "ClusterRank").getD .vnone) (.vint 0))

/-- Written from C8's words: renumber surviving entries with dense ordinals
`n+1, n+2, ...` in order, retaining every other field. -/
def renumberFrom (n : Int) : List (Entry × List String) → List Entry
  | [] => []
  | (e, _) :: t => { e with state := n + 1 } :: renumberFrom (n + 1) t

/-- Is a value a non-absent comparison result?  Used to state C7's proviso. -/
def PyVal.isInt : PyVal → Bool
  | .vint _ => true
  | _ => false

/-- Strictly-greater test on non-absent values (false when either side is the
absent sentinel); written for the claim-side update of C7. -/
def valGtB (a b : PyVal) : Bool :=
  match a.toRat?, b.toRat? with
  | some x, some y => decide (y < x)
  | _, _ => false

/-- Decrement a numeric value by one. -/
def decOne : PyVal → PyVal
  | .vint n => .vint (n - 1)
  | .vfloat q => .vfloat (mkRat (q.num - (q.den : Int)) q.den)
  | .vnone => .vnone

/-- Written from C7's words: the removed entry is `entry`; a remaining entry
`e` has its `ClusterRank` decremented by 1 exactly when it shares the removed
entry's `Cluster` value and its rank is strictly greater than the removed
entry's rank, and independently its ordinal (`state`) decremented by 1 exactly
when it shares the removed entry's collection-name (`obj`) and its ordinal is
strictly greater; everything else is unchanged. -/
def removeClaimUpdate (entry e : Entry) : Entry :=
  let sharesCluster := pyEqB ((mget e.remarks "Cluster").getD .vnone)
    ((mget entry.remarks "Cluster").getD .vnone)
  let eR := (mget e.remarks "ClusterRank").getD .vnone
  let nR := (mget entry.remarks "ClusterRank").getD .vnone
  let e1 := if sharesCluster && valGtB eR nR then
              { e with remarks := mset e.remarks "ClusterRank" (decOne eR) }
            else e
  if e1.obj = entry.obj && decide (entry.state < e1.state) then
    { e1 with state := e1.state - 1 }
  else e1

/-! ## Helper lemmas -/

theorem pyEqB_refl (v : PyVal) : pyEqB v v = true := by
  cases v <;> simp [pyEqB, PyVal.toRat?]

theorem mset_self {m : RemarkMap} {k : String} {v : PyVal}
    (h : mget m k = some v) : mset m k v = m := by
  induction m with
  | nil => simp [mget] at h
  | cons p t ih =>
    obtain ⟨pk, pv⟩ := p
    by_cases hk : pk = k
    · subst hk
      have hv : pv = v := by simpa [mget, List.find?_cons] using h
      subst hv
      simp [mset]
    · have hk' : (pk == k) = false := by simpa using hk
      simp only [mget, List.find?_cons, hk', Option.map_some] at h
      simp [mset, hk', ih h]

theorem exceptMapM_ok_of_forall {a b : Type} (f : a -> Except PyErr b)
    (g : a -> b) :
    ∀ l : List a, (∀ x ∈ l, f x = .ok (g x)) →
      exceptMapM f l = .ok (l.map g) := by
  intro l
  induction l with
  | nil => intro _; rfl
  | cons x t ih =>
    intro h
    simp only [exceptMapM, h x (by simp), ih (fun y hy => h y (by simp [hy])),
      List.map]

theorem exceptMapM_ok_map_eq {a b : Type} (f : a -> Except PyErr b)
    (g : b -> a) (hf : ∀ x y, f x = .ok y → g y = x) :
    ∀ (l : List a) (ys : List b), exceptMapM f l = .ok ys → ys.map g = l := by
  intro l
  induction l with
  | nil =>
    intro ys h
    simp only [exceptMapM, Except.ok.injEq] at h
    subst h; rfl
  | cons x t ih =>
    intro ys h
    simp only [exceptMapM] at h
    cases hfx : f x with
    | error e => rw [hfx] at h; cases h
    | ok y =>
      rw [hfx] at h
      cases hft : exceptMapM f t with
      | error e => rw [hft] at h; cases h
      | ok ts =>
        rw [hft] at h
        cases h
        simp [List.map, hf x y hfx, ih ts hft]

theorem exceptMapM_length {a b : Type} (f : a -> Except PyErr b) :
    ∀ (l : List a) (ys : List b), exceptMapM f l = .ok ys →
      ys.length = l.length := by
  intro l
  induction l with
  | nil =>
    intro ys h
    simp only [exceptMapM, Except.ok.injEq] at h
    subst h; rfl
  | cons x t ih =>
    intro ys h
    simp only [exceptMapM] at h
    cases hfx : f x with
    | error e => rw [hfx] at h; cases h
    | ok y =>
      rw [hfx] at h
      cases hft : exceptMapM f t with
      | error e => rw [hft] at h; cases h
      | ok ts =>
        rw [hft] at h
        cases h
        simp [ih ts hft]

/-- The mode `'1'` walk computes exactly: filter on `ClusterRank == 0`, then
renumber densely from the running counter, keeping payloads aligned. -/
theorem mode1Go_eq_spec :
    ∀ (l : List (Entry × List String)) (n : Int),
      (∀ ep ∈ l, (mget ep.1.remarks "ClusterRank").isSome = true) →
      mode1Go l n =
        .ok (renumberFrom n (rank0Spec l), (rank0Spec l).map (fun ep => ep.2)) := by
  intro l
  induction l with
  | nil => intro n _; rfl
  | cons ep t ih =>
    intro n h
    obtain ⟨e, p⟩ := ep
    have he : (mget e.remarks "ClusterRank").isSome = true := h (e, p) (by simp)
    obtain ⟨v, hv⟩ := Option.isSome_iff_exists.mp he
    have ht : ∀ ep ∈ t, (mget ep.1.remarks "ClusterRank").isSome = true :=
      fun ep hep => h ep (by simp [hep])
    by_cases h0 : pyEqB v (.vint 0) = true
    · simp only [mode1Go, hv, h0, if_true, ih (n + 1) ht]
      simp [rank0Spec, List.filter_cons, renumberFrom, hv, h0]
    · have h0' : pyEqB v (.vint 0) = false := by simpa using h0
      simp only [mode1Go, hv, h0', if_false, ih n ht]
      simp [rank0Spec, List.filter_cons, hv, h0']

theorem isSpace_toUpper {c : Char} (h : isSpace c = true) : c.toUpper = c := by
  have hc : c = ' ' ∨ c = '\t' ∨ c = '\n' ∨ c = '\r' ∨ c = '\x0b' ∨ c = '\x0c' := by
    simpa [isSpace, Bool.or_eq_true, decide_eq_true_eq, or_assoc] using h
  rcases hc with h | h | h | h | h | h <;> (rw [h]; decide)

theorem not_isSpace_of_toUpper {c u : Char} (hu : c.toUpper = u)
    (hs : isSpace u = false) : isSpace c = false := by
  cases hsc : isSpace c with
  | false => rfl
  | true =>
    rw [isSpace_toUpper hsc] at hu
    rw [hu] at hsc
    rw [hsc] at hs
    cases hs

theorem matchRemark_token {s : String} {pr : String × String}
    (h : matchRemark s = some pr) : firstTokenUpper s = "REMARK" := by
  obtain ⟨data⟩ := s
  rcases data with _ | ⟨c1, _ | ⟨c2, _ | ⟨c3, _ | ⟨c4, _ | ⟨c5, _ | ⟨c6, rest⟩⟩⟩⟩⟩⟩
  · simp [matchRemark] at h
  · simp [matchRemark] at h
  · simp [matchRemark] at h
  · simp [matchRemark] at h
  · simp [matchRemark] at h
  · simp [matchRemark] at h
  · simp only [matchRemark] at h
    split at h
    next hup =>
      split at h
      next c7 t =>
        split at h
        next hsp =>
          simp only [List.map, List.cons.injEq] at hup
          have s1 := not_isSpace_of_toUpper hup.1 (by decide)
          have s2 := not_isSpace_of_toUpper hup.2.1 (by decide)
          have s3 := not_isSpace_of_toUpper hup.2.2.1 (by decide)
          have s4 := not_isSpace_of_toUpper hup.2.2.2.1 (by decide)
          have s5 := not_isSpace_of_toUpper hup.2.2.2.2.1 (by decide)
          have s6 := not_isSpace_of_toUpper hup.2.2.2.2.2.1 (by decide)
          simp [firstTokenUpper, s1, s2, s3, s4, s5, s6, hsp, hup.1, hup.2.1,
            hup.2.2.1, hup.2.2.2.1, hup.2.2.2.2.1, hup.2.2.2.2.2.1,
            String.ext_iff]
        next => cases h
      next => cases h
    next => cases h

theorem matchRemark_not_coord {l : String}
    (h : (matchRemark l).isSome = true) : isCoordLine l = false := by
  obtain ⟨pr, hpr⟩ := Option.isSome_iff_exists.mp h
  simp [isCoordLine, matchRemark_token hpr]

theorem innerRemarks_ok :
    ∀ (m : RemarkMap) (rem : List String) (m' : RemarkMap) (rem' : List String),
      innerRemarks m rem = .ok (m', rem') →
      ∃ consumed, rem = consumed ++ rem' ∧
        ∀ l ∈ consumed, (matchRemark l).isSome = true := by
  intro m rem
  induction rem generalizing m with
  | nil => intro m' rem' h; simp [innerRemarks] at h
  | cons l t ih =>
    intro m' rem' h
    simp only [innerRemarks] at h
    cases hm : matchRemark l with
    | none =>
      simp only [hm, Except.ok.injEq, Prod.mk.injEq] at h
      obtain ⟨h1, h2⟩ := h
      subst h2
      exact ⟨[], rfl, by simp⟩
    | some kv =>
      obtain ⟨k, numeral⟩ := kv
      simp only [hm] at h
      cases hkv : keyValue k numeral with
      | error e => simp only [hkv] at h; cases h
      | ok v =>
        simp only [hkv] at h
        obtain ⟨consumed, hc, hall⟩ := ih (mset m k v) m' rem' h
        refine ⟨l :: consumed, by simp [hc], ?_⟩
        intro x hx
        rcases List.mem_cons.mp hx with hx | hx
        · subst hx; simp [hm]
        · exact hall x hx

theorem innerCoords_ok :
    ∀ (rem run rem' : List String),
      innerCoords rem = .ok (run, rem') →
      rem = run ++ rem' ∧ ∀ l ∈ run, isCoordLine l = true := by
  intro rem
  induction rem with
  | nil => intro run rem' h; simp [innerCoords] at h
  | cons l t ih =>
    intro run rem' h
    simp only [innerCoords] at h
    by_cases hc : isCoordLine l = true
    · rw [if_pos hc] at h
      cases hic : innerCoords t with
      | error e => simp only [hic] at h; cases h
      | ok pr =>
        obtain ⟨run0, rem0⟩ := pr
        simp only [hic, Except.ok.injEq, Prod.mk.injEq] at h
        obtain ⟨h1, h2⟩ := h
        subst h1; subst h2
        obtain ⟨ht, hall⟩ := ih run0 rem0 hic
        refine ⟨by simp [ht], ?_⟩
        intro x hx
        rcases List.mem_cons.mp hx with hx | hx
        · subst hx; exact hc
        · exact hall x hx
    · rw [if_neg hc] at h
      simp only [Except.ok.injEq, Prod.mk.injEq] at h
      obtain ⟨h1, h2⟩ := h
      subst h1; subst h2
      exact ⟨rfl, by simp⟩

/-- Invariant of the segmentation loop: on a normal exit, the collected
payload blocks flatten to the previously collected coordinate lines followed
by exactly the coordinate lines of the remaining input, in order. -/
theorem segLoop_pdb_flatten :
    ∀ (fuel : Nat) (rem : List String) (st st' : SegSt),
      segLoop fuel rem st = some (.ok st') →
      st'.pdb.flatten = st.pdb.flatten ++ rem.filter isCoordLine := by
  intro fuel
  induction fuel with
  | zero => intro rem st st' h; cases h
  | succ fuel ih =>
    intro rem st st' h
    cases rem with
    | nil =>
      simp only [segLoop, Option.some.injEq, SegOut.ok.injEq] at h
      subst h
      simp
    | cons line rest =>
      simp only [segLoop] at h
      by_cases hl : firstTokenUpper line = "REMARK"
      · rw [if_pos hl] at h
        cases hir : innerRemarks [] (line :: rest) with
        | error e => simp only [hir] at h; cases h
        | ok pr =>
          obtain ⟨m, rem'⟩ := pr
          simp only [hir] at h
          have hstep := ih rem' { st with remarks? := some m } st' h
          obtain ⟨consumed, hcsplit, hall⟩ :=
            innerRemarks_ok [] (line :: rest) m rem' hir
          have hnone : consumed.filter isCoordLine = [] := by
            rw [List.filter_eq_nil_iff]
            intro x hx
            simp [matchRemark_not_coord (hall x hx)]
          rw [hstep, hcsplit, List.filter_append, hnone, List.nil_append]
      · rw [if_neg hl] at h
        by_cases hco : isCoordLine line = true
        · rw [if_pos hco] at h
          cases hic : innerCoords (line :: rest) with
          | error e => simp only [hic] at h; cases h
          | ok pr =>
            obtain ⟨run, rem'⟩ := pr
            simp only [hic] at h
            cases hrm : st.remarks? with
            | none => simp only [hrm] at h; cases h
            | some m =>
              simp only [hrm] at h
              have hstep := ih rem'
                ⟨some m, st.entries ++ [m], st.pdb ++ [run]⟩ st' h
              obtain ⟨hsplit, hall⟩ := innerCoords_ok (line :: rest) run rem' hic
              have hrun : run.filter isCoordLine = run :=
                List.filter_eq_self.mpr hall
              rw [hstep, hsplit, List.filter_append, hrun]
              simp [List.flatten_append, List.append_assoc]
        · have hco' : isCoordLine line = false := by simpa using hco
          rw [if_neg (by simp [hco'])] at h
          have hstep := ih rest st st' h
          rw [hstep, List.filter_cons]
          simp [hco']

/-- One iteration of the `remove_ndx` update loop computes exactly the update
described by the claim, provided the entries involved carry a `Cluster` key
and integer `ClusterRank` values where they are compared. -/
theorem removeEntryUpd_eq_claim (entry e : Entry)
    (hCe : (mget e.remarks "Cluster").isSome = true)
    (hCn : (mget entry.remarks "Cluster").isSome = true)
    (hRe : pyEqB ((mget e.remarks "Cluster").getD .vnone)
        ((mget entry.remarks "Cluster").getD .vnone) = true →
      (∃ a : Int, mget e.remarks "ClusterRank" = some (.vint a)) ∧
      (∃ b : Int, mget entry.remarks "ClusterRank" = some (.vint b))) :
    removeEntryUpd entry e = .ok (removeClaimUpdate entry e) := by
  obtain ⟨ec, hec⟩ := Option.isSome_iff_exists.mp hCe
  obtain ⟨tc, htc⟩ := Option.isSome_iff_exists.mp hCn
  by_cases heq : pyEqB ec tc = true
  · obtain ⟨⟨a, ha⟩, ⟨b, hb⟩⟩ := hRe (by rw [hec, htc]; exact heq)
    by_cases hba : b < a
    · have hba' : decide ((b : ℚ) < (a : ℚ)) = true := by
        simp [hba]
      simp only [removeEntryUpd, getKey, hec, htc, ha, hb, heq, if_true, pyGt,
        PyVal.toRat?, hba', boolInt, removeClaimUpdate, Option.getD_some,
        valGtB, pySubInt, decOne, Bool.and_self]
      by_cases ho : e.obj = entry.obj <;>
        by_cases hlt : entry.state < e.state <;>
          (simp [ho, hlt, boolInt]; try rw [← ho])
    · have hba' : decide ((b : ℚ) < (a : ℚ)) = false := by
        simp [hba]
      have hsub : pySubInt (.vint a) (boolInt false) = .ok (.vint a) := by
        simp [pySubInt, boolInt]
      simp only [removeEntryUpd, getKey, hec, htc, ha, hb, heq, if_true, pyGt,
        PyVal.toRat?, hba', hsub]
      rw [mset_self ha]
      simp only [removeClaimUpdate, hec, htc, Option.getD_some, ha, hb, valGtB,
        PyVal.toRat?, hba', Bool.and_false, Bool.false_eq_true, if_false]
      by_cases ho : e.obj = entry.obj <;>
        by_cases hlt : entry.state < e.state <;>
          (simp [ho, hlt, boolInt]; try rw [← ho])
  · have heq' : pyEqB ec tc = false := by simpa using heq
    simp only [removeEntryUpd, getKey, hec, htc, heq', Bool.false_eq_true,
      if_false, removeClaimUpdate, Option.getD_some, Bool.false_and]
    by_cases ho : e.obj = entry.obj <;>
      by_cases hlt : entry.state < e.state <;>
        (simp [ho, hlt, boolInt]; try rw [← ho])

/-! ## Concrete inputs and stores used by the claims -/

def c1Input : List String :=
  ["REMARK ClusterRank : 2", "ATOM 1 A", "TER",
   "REMARK ClusterRank : 1", "ATOM 2 B", "TER"]

def c1Loaded : LoadResult :=
  ⟨[⟨[("ClusterRank", .vint 2)], "m", 1⟩, ⟨[("ClusterRank", .vint 1)], "m", 2⟩],
   [["ATOM 1 A"], ["ATOM 2 B"]], false,
   [("m", "ATOM 1 A\nENDMDL\nATOM 2 B\nENDMDL\n")]⟩

def c1Sorted : Docked :=
  ⟨[⟨[("ClusterRank", .vint 1)], "m", 2⟩, ⟨[("ClusterRank", .vint 2)], "m", 1⟩],
   [["ATOM 1 A"], ["ATOM 2 B"]]⟩

def c4Input : List String :=
  ["REMARK Cluster : 0", "REMARK ClusterRank : 0", "ATOM 1", "TER",
   "REMARK Cluster : 0", "REMARK ClusterRank : 1", "ATOM 2", "TER"]

def c4Result : LoadResult :=
  ⟨[⟨[("Cluster", .vint 0), ("ClusterRank", .vint 0)], "m-0", 2⟩,
    ⟨[("Cluster", .vint 0), ("ClusterRank", .vint 1)], "m-0", 3⟩],
   [["ATOM 1"], ["ATOM 2"]], false,
   [("m-0", "ATOM 1\nENDMDL\nATOM 2\nENDMDL\n")]⟩

def c6Store : Docked :=
  ⟨[⟨[("a", .vfloat 1)], "m", 1⟩, ⟨[("a", .vnone)], "m", 2⟩], [["p"], ["q"]]⟩

def c6OkSorted : Docked :=
  ⟨[⟨[("a", .vfloat 1)], "m", 2⟩, ⟨[("a", .vfloat 2)], "m", 1⟩],
   [["p"], ["q"]]⟩

def c6Ok : Docked :=
  ⟨[⟨[("a", .vfloat 2)], "m", 1⟩, ⟨[("a", .vfloat 1)], "m", 2⟩], [["p"], ["q"]]⟩

def c7Bad : Docked :=
  ⟨[⟨[("Cluster", .vnone), ("ClusterRank", .vnone)], "m", 1⟩], [["p"]]⟩

def c7Good : Docked :=
  ⟨[⟨[("Cluster", .vint 0), ("ClusterRank", .vint 0)], "m", 1⟩,
    ⟨[("Cluster", .vint 0), ("ClusterRank", .vint 1)], "m", 2⟩,
    ⟨[("Cluster", .vint 0), ("ClusterRank", .vint 2)], "m", 3⟩],
   [["p"], ["q"], ["r"]]⟩

def c8Input : List String :=
  ["REMARK Cluster : 0", "REMARK ClusterRank : 0", "ATOM 1 A", "TER",
   "REMARK Cluster : 0", "REMARK ClusterRank : 1", "ATOM 2 B", "TER",
   "REMARK Cluster : 1", "REMARK ClusterRank : 0", "ATOM 3 C", "TER",
   "REMARK Cluster : 1", "REMARK ClusterRank : 2", "ATOM 4 D", "TER",
   "REMARK Cluster : 1", "REMARK ClusterRank : 1", "ATOM 5 E", "TER"]

def c8Expected : LoadResult :=
  ⟨[⟨[("Cluster", .vint 0), ("ClusterRank", .vint 0)], "m", 1⟩,
    ⟨[("Cluster", .vint 1), ("ClusterRank", .vint 0)], "m", 2⟩],
   [["ATOM 1 A"], ["ATOM 3 C"]], false,
   [("m", "ATOM 1 A\nENDMDL\nATOM 3 C\nENDMDL\n")]⟩

def c8WitList : List (Entry × List String) :=
  [(⟨[("ClusterRank", .vint 0)], "m", 1⟩, ["A"]),
   (⟨[("ClusterRank", .vint 1)], "m", 2⟩, ["B"])]

def c10WitInput : List String := ["REMARK a : 1", "ATOM 1", "TER"]

def c10WitSt : SegSt :=
  ⟨some [("a", .vfloat 1)], [[("a", .vfloat 1)]], [["ATOM 1"]]⟩

/-- On the single junk line whose first token is `REMARK` but which does not
match the annotation pattern, every outer iteration of the segmentation loop
leaves the index unchanged, so no amount of fuel completes. -/
theorem segLoop_junk_fixpoint :
    ∀ (fuel : Nat) (st : SegSt),
      segLoop fuel ["REMARK hello world"] st = none := by
  intro fuel
  induction fuel with
  | zero => intro st; rfl
  | succ fuel ih => intro st; exact ih ⟨some [], st.entries, st.pdb⟩

/-! ## The claims -/

/-- C1: the claim says that after every Load/RemoveAt/SortBy the Entries and
Payloads sequences stay index-aligned, and in particular that SortBy reorders
the payload at each index together with its entry.  The code violates this:
`Docked.sort` reassigns only `self.entries` (line 194 of the source) and
leaves `self.pdb` untouched.  Here a two-molecule load (entry with state `i`
was built from payload `i-1`) followed by an ascending sort swaps the two
entries while `pdb` keeps the load order, so afterwards the entry at index 0
(state 2, built from the second payload) sits next to the first payload. -/
theorem C1_sort_misaligns_entries_and_payloads :
    load_dock4 99 c1Input "m" "0" = some (.ok c1Loaded) ∧
    Docked.sort ⟨c1Loaded.entries, c1Loaded.pdb⟩ "ClusterRank" false
      = .ok c1Sorted ∧
    c1Loaded.entries.map Entry.state = [1, 2] ∧
    c1Sorted.entries.map Entry.state = [2, 1] ∧
    c1Sorted.pdb = c1Loaded.pdb :=
  ⟨rfl, rfl, rfl, rfl, rfl⟩

/-- C2: the claim says any line that is neither a matching annotation line
nor a coordinate line — including a line starting with the `REMARK` keyword
that fails the full pattern — is silently skipped in a single terminating
forward pass.  The code instead loops forever on such a line: the `REMARK`
branch of `load_dock4` never advances `i` when `remark_re` does not match, so
for every fuel bound the loop is still running (`none` for all fuel =
non-termination of the Python `while` loop). -/
theorem C2_remark_junk_line_diverges :
    ∀ (fuel : Nat) (object mode : String),
      load_dock4 fuel ["REMARK hello world"] object mode = none := by
  intro fuel object mode
  have h := segLoop_junk_fixpoint fuel segInit
  simp only [load_dock4]
  rw [show cleanLines ["REMARK hello world"] = ["REMARK hello world"] from rfl,
    h]

/-- C3: the claim says the clustering-field check fails only for the
cluster-based modes and that mode ALL_ONE (`'0'`) never fails it.  Because
line 146 of the source parses as
`(mode in ('1','2') and not 'Cluster' in R) or (not 'ClusterRank' in R)`,
an ALL_ONE load whose entries lack `ClusterRank` takes the failure branch:
it prints the failure, emits no `read_pdbstr` call, and returns early; the
store keeps the parsed, equalized entries (that last part of the claim is
what the code does). -/
theorem C3_all_one_load_fails_split_check :
    load_dock4 99 ["REMARK deltaG : -5.2", "ATOM 1", "TER"] "m" "0" =
      some (.ok ⟨[⟨[("deltaG", .vfloat (mkRat (-26) 5))], "m", 1⟩],
        [["ATOM 1"]], true, []⟩) := rfl

/-- C4: the claim says ordinals are dense `{1, ..., count}` within every
collection-name after every load, with ALL_BY_CLUSTER reassigning them
densely starting at 1.  In mode `'2'` the code sets
`state = len(pdb[object_new]) + 1` AFTER appending the payload, so the two
entries of the derived collection `m-0` get ordinals 2 and 3 instead of
1 and 2. -/
theorem C4_all_by_cluster_ordinals_off_by_one :
    load_dock4 99 c4Input "m" "2" = some (.ok c4Result) ∧
    c4Result.entries.map Entry.state = [2, 3] ∧
    c4Result.entries.map Entry.obj = ["m-0", "m-0"] :=
  ⟨rfl, rfl, rfl⟩

/-- C5: the claim says a coordinate payload appearing before any annotation
set still loads, its entry receiving an empty annotation map.  The code
instead crashes: the local variable `remarks` is only assigned inside the
`REMARK` branch, so `self.entries.append({'remarks': remarks, ...})` raises
`UnboundLocalError` when the first block is a coordinate block. -/
theorem C5_payload_before_remarks_raises :
    load_dock4 99 ["ATOM 1 X", "TER"] "m" "0" =
      some (.error .unboundLocal) := rfl

/-- C6 counterexample: sorting by a schema field is NOT total over the absent
sentinel.  With two entries, one holding `1.0` and one holding the `None`
sentinel for field `a`, `sorted` compares a number with `None` and raises
`TypeError` instead of placing the absent entry at one end. -/
theorem C6_absent_sort_raises :
    Docked.sort c6Store "a" false = .error .typeError := rfl

theorem insertS_perm {a : Type} (le : a -> a -> Bool) (x : a) :
    ∀ l : List a, (insertS le x l).Perm (x :: l) := by
  intro l
  induction l with
  | nil => simp [insertS]
  | cons y t ih =>
    simp only [insertS]
    by_cases h : le x y = true
    · simp [h]
    · have h' : le x y = false := by simpa using h
      simp only [h', Bool.false_eq_true, if_false]
      exact (ih.cons y).trans (List.Perm.swap x y t)

theorem insertionSort_perm {a : Type} (le : a -> a -> Bool) :
    ∀ l : List a, (insertionSort le l).Perm l := by
  intro l
  induction l with
  | nil => simp [insertionSort]
  | cons x t ih => exact (insertS_perm le x _).trans (ih.cons x)

/-- C6 (amended): sort comparison is total over numeric annotation values:
when every entry holds a numeric (non-absent) value for the field, SortBy
succeeds.  But it is NOT total over the absent sentinel: when every entry
holds the field (as equalization guarantees), the store has at least two
entries and some entry's value is the absent sentinel, SortBy raises
`TypeError` instead of placing the absent entry at one end. -/
theorem C6_amended_sort_total_only_on_numeric (s : Docked) (remark : String)
    (rev : Bool) :
    ((∀ e ∈ s.entries, ∃ q, mget e.remarks remark = some q ∧ q ≠ PyVal.vnone) →
      s.entries ≠ [] → ∃ s', Docked.sort s remark rev = .ok s') ∧
    ((∀ e ∈ s.entries, (mget e.remarks remark).isSome = true) →
      2 ≤ s.entries.length →
      (∃ e ∈ s.entries, mget e.remarks remark = some PyVal.vnone) →
      Docked.sort s remark rev = .error .typeError) := by
  constructor
  · intro hnum hne
    obtain ⟨e0, he0⟩ := List.exists_mem_of_ne_nil _ hne
    obtain ⟨q0, hq0, _⟩ := hnum e0 he0
    have hgate : remarksContains s.entries remark = true :=
      List.any_eq_true.mpr ⟨e0, he0, by simp [hq0]⟩
    have hmapM : exceptMapM (fun e =>
        match mget e.remarks remark with
        | none => Except.error PyErr.keyError
        | some v => Except.ok (v, e)) s.entries =
        .ok (s.entries.map (fun e => ((mget e.remarks remark).getD .vnone, e))) := by
      apply exceptMapM_ok_of_forall
      intro e he
      obtain ⟨q, hq, _⟩ := hnum e he
      simp [hq]
    have hany : (s.entries.map (fun e => ((mget e.remarks remark).getD .vnone, e))).any
        (fun p => p.1 = PyVal.vnone) = false := by
      rw [List.any_eq_false]
      intro p hp
      rw [List.mem_map] at hp
      obtain ⟨e, he, rfl⟩ := hp
      obtain ⟨q, hq, hq'⟩ := hnum e he
      simp [hq, hq']
    simp only [Docked.sort, hgate, Bool.not_true, Bool.false_eq_true, if_false,
      hmapM, hany, Bool.and_false]
    exact ⟨_, rfl⟩
  · intro hall h2 habs
    obtain ⟨e1, he1, he1v⟩ := habs
    have hgate : remarksContains s.entries remark = true :=
      List.any_eq_true.mpr ⟨e1, he1, by simp [he1v]⟩
    have hmapM : exceptMapM (fun e =>
        match mget e.remarks remark with
        | none => Except.error PyErr.keyError
        | some v => Except.ok (v, e)) s.entries =
        .ok (s.entries.map (fun e => ((mget e.remarks remark).getD .vnone, e))) := by
      apply exceptMapM_ok_of_forall
      intro e he
      obtain ⟨v, hv⟩ := Option.isSome_iff_exists.mp (hall e he)
      simp [hv]
    have hany : (s.entries.map (fun e => ((mget e.remarks remark).getD .vnone, e))).any
        (fun p => p.1 = PyVal.vnone) = true :=
      List.any_eq_true.mpr ⟨_, List.mem_map.mpr ⟨e1, he1, rfl⟩, by simp [he1v]⟩
    have hcond : (decide (2 ≤ (s.entries.map
        (fun e => ((mget e.remarks remark).getD .vnone, e))).length) &&
        (s.entries.map (fun e => ((mget e.remarks remark).getD .vnone, e))).any
          (fun p => p.1 = PyVal.vnone)) = true := by
      rw [List.length_map, hany]
      simp [h2]
    simp only [Docked.sort, hgate, Bool.not_true, Bool.false_eq_true, if_false,
      hmapM, hcond, if_true]

/-- Witness for C6 (amended): a concrete all-numeric store sorts fine, and a
concrete store with one absent value raises `TypeError`. -/
theorem C6_amended_witness :
    (∃ s', Docked.sort c6Ok "a" false = .ok s') ∧
    Docked.sort c6Store "a" false = .error .typeError :=
  ⟨(C6_amended_sort_total_only_on_numeric c6Ok "a" false).1
      (by
        intro e he
        fin_cases he
        · exact ⟨.vfloat 2, rfl, by simp⟩
        · exact ⟨.vfloat 1, rfl, by simp⟩)
      (by simp [c6Ok]),
    (C6_amended_sort_total_only_on_numeric c6Store "a" false).2
      (by intro e he; fin_cases he <;> rfl)
      (by simp [c6Store])
      ⟨⟨[("a", .vnone)], "m", 2⟩, by simp [c6Store], rfl⟩⟩

/-- C7 counterexample: the claim's renumbering description fails on a store
whose removed entry holds the absent sentinel for `Cluster`/`ClusterRank`
(reachable by equalization): `None == None` is true, and the comparison
`ClusterRank > ClusterRank` on `None` raises `TypeError`, so `remove_ndx`
crashes instead of removing the entry and its payload. -/
theorem C7_remove_absent_cluster_raises :
    Docked.remove_ndx c7Bad 0 true = .error .typeError := rfl

/-- C7 (amended): for every in-range index, RemoveAt with renumbering enabled
and both `Cluster` and `ClusterRank` in the schema — provided every entry
holds a `Cluster` value and every entry sharing the removed entry's `Cluster`
value (itself included) holds an integer, non-absent `ClusterRank` — removes
`Entries[index]` and `Payloads[index]` together, and updates each remaining
entry exactly as `removeClaimUpdate` describes: `ClusterRank` decremented by
one iff it shares the removed entry's `Cluster` value with a strictly greater
rank; ordinal (`state`) decremented by one iff it shares the removed entry's
collection-name with a strictly greater ordinal; all else unchanged. -/
theorem C7_amended_remove_renumbers (s : Docked) (ndx : Nat) (entry : Entry)
    (hget : s.entries.get? ndx = some entry)
    (hpdb : ndx < s.pdb.length)
    (hC : ∀ e ∈ s.entries, (mget e.remarks "Cluster").isSome = true)
    (hR : ∀ e ∈ s.entries,
      pyEqB ((mget e.remarks "Cluster").getD .vnone)
        ((mget entry.remarks "Cluster").getD .vnone) = true →
      ∃ a : Int, mget e.remarks "ClusterRank" = some (.vint a)) :
    Docked.remove_ndx s ndx true =
      .ok ⟨(s.entries.map (removeClaimUpdate entry)).eraseIdx ndx,
           s.pdb.eraseIdx ndx⟩ := by
  have hmem : entry ∈ s.entries := by
    obtain ⟨hlt, hE⟩ := List.get?_eq_some.mp hget
    exact hE ▸ List.get_mem s.entries ndx hlt
  obtain ⟨b, hb⟩ := hR entry hmem (pyEqB_refl _)
  have hcl : remarksContains s.entries "Cluster" = true :=
    List.any_eq_true.mpr ⟨entry, hmem, hC entry hmem⟩
  have hrk : remarksContains s.entries "ClusterRank" = true :=
    List.any_eq_true.mpr ⟨entry, hmem, by simp [hb]⟩
  have hmapM : exceptMapM (removeEntryUpd entry) s.entries =
      .ok (s.entries.map (removeClaimUpdate entry)) := by
    apply exceptMapM_ok_of_forall
    intro e he
    exact removeEntryUpd_eq_claim entry e (hC e he) (hC entry hmem)
      (fun hq => ⟨hR e he hq, ⟨b, hb⟩⟩)
  simp only [Docked.remove_ndx, hget, hcl, hrk, Bool.and_self, if_true, hmapM,
    hpdb]

/-- Witness for C7 (amended): the spec's own scenario — one cluster with
ranks `[0, 1, 2]` — removing the rank-1 entry at index 1 decrements the
rank-2 entry to rank 1, leaves rank 0 untouched, and closes the per-object
ordinal gap. -/
theorem C7_amended_witness :
    Docked.remove_ndx c7Good 1 true =
      .ok ⟨[⟨[("Cluster", .vint 0), ("ClusterRank", .vint 0)], "m", 1⟩,
            ⟨[("Cluster", .vint 0), ("ClusterRank", .vint 1)], "m", 2⟩],
           [["p"], ["r"]]⟩ :=
  (C7_amended_remove_renumbers c7Good 1
      ⟨[("Cluster", .vint 0), ("ClusterRank", .vint 1)], "m", 2⟩
      rfl (by simp [c7Good])
      (by intro e he; fin_cases he <;> rfl)
      (by
        intro e he hq
        fin_cases he
        · exact ⟨0, rfl⟩
        · exact ⟨1, rfl⟩
        · exact ⟨2, rfl⟩)).trans (by rfl)

/-- C8: a Load in mode FIRST_OF_CLUSTER (`'1'`) keeps exactly the entries
whose `ClusterRank` equals 0, in original relative order, renumbered with
dense 1-based ordinals, retaining the original collection-name, with payloads
kept aligned — stated as the equivalence of the mode-`'1'` walk with
filter-then-renumber, plus the spec's concrete scenario: ranks
`[0, 1, 0, 2, 1]` leave exactly molecules 1 and 3 with ordinals 1, 2. -/
theorem C8_first_of_cluster_keeps_rank0 :
    (∀ (l : List (Entry × List String)),
      (∀ ep ∈ l, (mget ep.1.remarks "ClusterRank").isSome = true) →
      mode1Go l 0 =
        .ok (renumberFrom 0 (rank0Spec l),
             (rank0Spec l).map (fun ep => ep.2))) ∧
    load_dock4 99 c8Input "m" "1" = some (.ok c8Expected) ∧
    c8Expected.entries.map Entry.state = [1, 2] ∧
    c8Expected.entries.map Entry.obj = ["m", "m"] :=
  ⟨fun l hall => mode1Go_eq_spec l 0 hall, rfl, rfl, rfl⟩

/-- Witness for C8: the filter-then-renumber equation evaluated on a concrete
two-entry store with ranks `[0, 1]`. -/
theorem C8_witness :
    mode1Go c8WitList 0 =
      .ok ([⟨[("ClusterRank", .vint 0)], "m", 1⟩], [["A"]]) :=
  (C8_first_of_cluster_keeps_rank0.1 c8WitList
    (by intro ep hep; fin_cases hep <;> rfl)).trans (by rfl)

/-- C9: sorting by a name absent from the schema fails with the
unknown-field `ValueError` (the store object is untouched: the exception is
raised before `self.entries` is reassigned), and any successful sort only
permutes `entries` — same length, same multiset of entries, `pdb` is not
modified at all. -/
theorem C9_sort_unknown_field_and_permutation (s : Docked) (remark : String)
    (rev : Bool) :
    (remarksContains s.entries remark = false →
      Docked.sort s remark rev = .error .valueError) ∧
    (∀ s', Docked.sort s remark rev = .ok s' →
      s'.entries.Perm s.entries ∧ s'.pdb = s.pdb ∧
      s'.entries.length = s.entries.length) := by
  constructor
  · intro h
    simp [Docked.sort, h]
  · intro s' h
    simp only [Docked.sort] at h
    by_cases hg : remarksContains s.entries remark = true
    · simp only [hg, Bool.not_true, Bool.false_eq_true, if_false] at h
      cases hdec : exceptMapM (fun e =>
          match mget e.remarks remark with
          | none => Except.error PyErr.keyError
          | some v => Except.ok (v, e)) s.entries with
      | error e => simp only [hdec] at h; cases h
      | ok dec =>
        simp only [hdec] at h
        split at h
        · cases h
        · have hmap : dec.map (fun p => p.2) = s.entries := by
            apply exceptMapM_ok_map_eq _ _ _ s.entries dec hdec
            intro e pr hpr
            cases hm : mget e.remarks remark with
            | none => simp only [hm] at hpr; cases hpr
            | some v =>
              simp only [hm, Except.ok.injEq] at hpr
              rw [← hpr]
          cases h
          have hperm : ((insertionSort
              (fun a b => if rev then pyLeB b.1 a.1 else pyLeB a.1 b.1)
              dec).map (fun p => p.2)).Perm s.entries := by
            rw [← hmap]
            exact (insertionSort_perm _ dec).map _
          exact ⟨hperm, rfl, hperm.length_eq⟩
    · have hg' : remarksContains s.entries remark = false := by simpa using hg
      simp only [hg', Bool.not_false, if_true] at h
      cases h

/-- Witness for C9: a concrete two-entry store rejects an unknown field, and
a successful sort of the same store keeps the entry multiset and `pdb`. -/
theorem C9_witness :
    Docked.sort c6Ok "zz" false = .error .valueError ∧
    Docked.sort c6Ok "a" false = .ok c6OkSorted ∧
    c6OkSorted.entries.Perm c6Ok.entries ∧ c6OkSorted.pdb = c6Ok.pdb ∧
    c6OkSorted.entries.length = c6Ok.entries.length :=
  ⟨(C9_sort_unknown_field_and_permutation c6Ok "zz" false).1 (by rfl),
   rfl,
   (C9_sort_unknown_field_and_permutation c6Ok "a" false).2 c6OkSorted (by rfl)⟩

/-- C10 counterexample: on the input consisting of the single coordinate line
`ATOM 1`, segmentation raises `IndexError` before appending the block, so the
produced payloads flatten to `[]` while the input's coordinate lines are
`["ATOM 1"]` — concatenating the produced payloads does not reproduce the
original coordinate lines (and the whole load raises). -/
theorem C10_trailing_coord_crash :
    segLoop 9 ["ATOM 1"] segInit = some (.err .indexError segInit) ∧
    load_dock4 9 ["ATOM 1"] "m" "0" = some (.error .indexError) ∧
    segInit.pdb.flatten = [] ∧
    ["ATOM 1"].filter isCoordLine = ["ATOM 1"] ∧
    ([] : List String) ≠ ["ATOM 1"] :=
  ⟨rfl, rfl, rfl, rfl, by simp⟩

/-- C10 (amended): for every input on which segmentation terminates without
an exception, the produced Coordinate Payloads — each payload string is
`payloadString` of its line block, so stripping the inserted `ENDMDL` marker
leaves exactly the block's lines — concatenate to exactly the coordinate
lines of the (cleaned) input, in their original order. -/
theorem C10_amended_roundtrip (fuel : Nat) (lines : List String) (st' : SegSt)
    (h : segLoop fuel (cleanLines lines) segInit = some (.ok st')) :
    st'.pdb.flatten = (cleanLines lines).filter isCoordLine := by
  have hinv := segLoop_pdb_flatten fuel (cleanLines lines) segInit st' h
  simpa [segInit] using hinv

/-- Witness for C10 (amended): a concrete one-molecule input round-trips. -/
theorem C10_amended_witness :
    c10WitSt.pdb.flatten = (cleanLines c10WitInput).filter isCoordLine :=
  C10_amended_roundtrip 50 c10WitInput c10WitSt (by rfl)
